import Mathlib

/-!
Verification of the clustering core of `similar_coordinate.py`
(`FindSimilarCoordinatesAlgorithm.processAlgorithm`).

The geometric backend (QGIS/GEOS: buffering, unary union, multipart
decomposition, exact intersection tests, bounding boxes and the spatial
index's bounding-box query) is external to the repository; it is modelled
as an abstract structure `Geo` of operations.  Everything the Python file
itself computes - the buffer list, the dissolve, the singlepart split, the
region numbering, the two classification passes, the tally dictionary and
the emitted output records - is transliterated below as executable
definitions over that abstract backend.  A small concrete backend
(`cellsGeo`, geometries as finite sets of integer cells) instantiates the
model so that every statement with a hypothesis can be evaluated on a
concrete run.
-/

namespace SimilarCoordinate

/-- Abstract geometry backend: the operations of the host GIS library used
by `processAlgorithm`.  `G` is the geometry type, `Bx` the bounding-box
type.  `buffer g d segs` models `QgsGeometry.buffer(distance, segments)`;
`bboxIntersects` models the spatial index's bounding-box query predicate. -/
structure Geo (G Bx : Type) where
  buffer : G → ℚ → Nat → G
  unaryUnion : List G → G
  isMultipart : G → Bool
  asGeometryCollection : G → List G
  intersects : G → G → Bool
  boundingBox : G → Bx
  bboxIntersects : Bx → Bx → Bool

/-- An input feature: a point geometry plus its ordered attribute row
(attribute values of abstract type `A`). -/
structure Feature (G A : Type) where
  geom : G
  attributes : List A
  deriving DecidableEq

/-- A singlepart region feature of the in-memory `singlepart_layer`:
its `location_id` attribute and its polygon geometry. -/
structure Region (G : Type) where
  location_id : Nat
  geom : G
  deriving DecidableEq

/-- An output feature (line 145-148 of the source): the original geometry,
the original attribute row, and the two appended cells
`assigned_location_id` (None modelled as `Option.none`) and `count_id`. -/
structure OutputRecord (G A : Type) where
  geom : G
  attributes : List A
  location_id : Option Nat
  count_id : Nat
  deriving DecidableEq

variable {G Bx A : Type}

/-- Step 1 (lines 63-70): buffer every input geometry with the given
distance and 5 quarter-circle segments. -/
def buffersOf (geo : Geo G Bx) (d : ℚ) (inputs : List (Feature G A)) : List G :=
  inputs.map (fun f => geo.buffer f.geom d 5)

/-- Step 3 (lines 77-84): split the dissolved geometry into singleparts:
its geometry collection when it is multipart, otherwise the singleton
list holding the dissolved geometry itself. -/
def singleparts (geo : Geo G Bx) (dissolved : G) : List G :=
  if geo.isMultipart dissolved then geo.asGeometryCollection dissolved else [dissolved]

/-- Step 4 (lines 92-98): turn the singlepart geometries into region
features, numbering them with the `location_id` counter that starts at
`lid` and increments once per region. -/
def mkRegionsFrom (lid : Nat) : List G → List (Region G)
  | [] => []
  | g :: gs => ⟨lid, g⟩ :: mkRegionsFrom (lid + 1) gs

/-- Step 4: the counter starts at 1 (line 92). -/
def mkRegions (gs : List G) : List (Region G) :=
  mkRegionsFrom 1 gs

/-- Steps 2-4 combined: the singlepart list of the dissolved union of the
buffers. -/
def partsOf (geo : Geo G Bx) (d : ℚ) (inputs : List (Feature G A)) : List G :=
  singleparts geo (geo.unaryUnion (buffersOf geo d inputs))

/-- The region features of the run. -/
def regionsOf (geo : Geo G Bx) (d : ℚ) (inputs : List (Feature G A)) : List (Region G) :=
  mkRegions (partsOf geo d inputs)

/-- Step 5's index query (line 112, `spatial_index.intersects(geom.boundingBox())`):
the stored region features whose bounding box intersects the query
geometry's bounding box. -/
def candidateRegions (geo : Geo G Bx) (regions : List (Region G)) (g : G) : List (Region G) :=
  regions.filter (fun r => geo.bboxIntersects (geo.boundingBox r.geom) (geo.boundingBox g))

/-- Step 6's inner loop (lines 112-117): the `location_ids` collected for
one input geometry - candidates from the index, refined by the exact
`intersects` test. -/
def tallyLocationIds (geo : Geo G Bx) (regions : List (Region G)) (g : G) : List Nat :=
  ((candidateRegions geo regions g).filter (fun r => geo.intersects r.geom g)).map
    (fun r => r.location_id)

/-- Step 6's assignment (lines 119-126): `min(location_ids)` when the set is
non-empty, `None` otherwise. -/
def classifyTally (geo : Geo G Bx) (regions : List (Region G)) (g : G) : Option Nat :=
  (tallyLocationIds geo regions g).min?

/-- Step 7's inner loop (lines 131-136), a verbatim second copy of the
step 6 loop in the source. -/
def emitLocationIds (geo : Geo G Bx) (regions : List (Region G)) (g : G) : List Nat :=
  ((candidateRegions geo regions g).filter (fun r => geo.intersects r.geom g)).map
    (fun r => r.location_id)

/-- Step 7's assignment (lines 138-142), a verbatim second copy of the
step 6 assignment. -/
def classifyEmit (geo : Geo G Bx) (regions : List (Region G)) (g : G) : Option Nat :=
  (emitLocationIds geo regions g).min?

/-- The Python dict update of lines 121-124: increment the entry when the
key is present, otherwise insert it with value 1. -/
def bump : List (Nat × Nat) → Nat → List (Nat × Nat)
  | [], k => [(k, 1)]
  | (a, v) :: m, k => if a = k then (a, v + 1) :: m else (a, v) :: bump m k

/-- `dict.get(k, 0)` (line 140): the stored value, or 0 when absent. -/
def getD (m : List (Nat × Nat)) (k : Nat) : Nat :=
  (m.lookup k).getD 0

/-- One iteration of the step 6 loop body acting on the
`location_id_count` dictionary. -/
def tallyStep (geo : Geo G Bx) (regions : List (Region G))
    (m : List (Nat × Nat)) (f : Feature G A) : List (Nat × Nat) :=
  match classifyTally geo regions f.geom with
  | some lid => bump m lid
  | none => m

/-- Step 6 (lines 109-126): the `location_id_count` dictionary after the
first classification pass over all input features. -/
def countsOf (geo : Geo G Bx) (d : ℚ) (inputs : List (Feature G A)) : List (Nat × Nat) :=
  inputs.foldl (tallyStep geo (regionsOf geo d inputs)) []

/-- Step 7's body (lines 129-148): one output feature per input feature,
carrying the original geometry, the original attribute row, and the two
appended cells.  `count_id` is `location_id_count.get(assigned, 0)` for an
assigned feature and 0 for an unassigned one. -/
def emitRecord (geo : Geo G Bx) (regions : List (Region G))
    (counts : List (Nat × Nat)) (f : Feature G A) : OutputRecord G A :=
  match classifyEmit geo regions f.geom with
  | some lid => ⟨f.geom, f.attributes, some lid, getD counts lid⟩
  | none => ⟨f.geom, f.attributes, none, 0⟩

/-- The whole run (`processAlgorithm`, lines 48-151): the list of output
records added to the sink, in input iteration order. -/
def processAlgorithm (geo : Geo G Bx) (d : ℚ) (inputs : List (Feature G A)) :
    List (OutputRecord G A) :=
  inputs.map (emitRecord geo (regionsOf geo d inputs) (countsOf geo d inputs))

/-- The set of exactly-intersecting region identifiers of a geometry, as
the spec's Point Classifier describes it (§4.4): every region whose stored
polygon exactly intersects the geometry, with no bounding-box pre-filter.
Used to compare the code's two-phase lookup against the spec's wording. -/
def exactIds (geo : Geo G Bx) (regions : List (Region G)) (g : G) : List Nat :=
  (regions.filter (fun r => geo.intersects r.geom g)).map (fun r => r.location_id)

/-- A concrete executable geometry backend for evaluating the model:
a geometry is a finite list of integer cells, its bounding box is itself,
buffering is the identity, the union is concatenation, a geometry is
multipart unless it holds exactly one cell, and decomposition splits it
into its cells. -/
def cellsGeo : Geo (List ℤ) (List ℤ) where
  buffer g _ _ := g
  unaryUnion gs := gs.flatten.dedup
  isMultipart g := g.length != 1
  asGeometryCollection g := g.map (fun x => [x])
  intersects g1 g2 := g1.any (fun x => g2.contains x)
  boundingBox g := g
  bboxIntersects b1 b2 := b1.any (fun x => b2.contains x)

end SimilarCoordinate

namespace SimilarCoordinate

variable {G Bx A : Type}

theorem getD_bump_self (m : List (Nat × Nat)) (k : Nat) :
    getD (bump m k) k = getD m k + 1 := by
  induction m with
  | nil => simp [bump, getD]
  | cons p m ih =>
    obtain ⟨a, v⟩ := p
    by_cases h : a = k
    · subst h
      simp [bump, getD, List.lookup]
    · have hb : (k == a) = false := beq_eq_false_iff_ne.mpr (Ne.symm h)
      simpa [bump, h, getD, List.lookup, hb] using ih

theorem lookup_bump_ne (m : List (Nat × Nat)) (k j : Nat) (h : j ≠ k) :
    (bump m k).lookup j = m.lookup j := by
  induction m with
  | nil =>
    have hb : (j == k) = false := beq_eq_false_iff_ne.mpr h
    simp [bump, List.lookup, hb]
  | cons p m ih =>
    obtain ⟨a, v⟩ := p
    by_cases hak : a = k
    · subst hak
      have hb : (j == a) = false := beq_eq_false_iff_ne.mpr h
      simp [bump, List.lookup, hb]
    · simp [bump, hak, List.lookup, ih]

theorem getD_bump_ne (m : List (Nat × Nat)) (k j : Nat) (h : j ≠ k) :
    getD (bump m k) j = getD m j := by
  rw [getD, getD, lookup_bump_ne m k j h]

end SimilarCoordinate

namespace SimilarCoordinate
variable {G Bx A : Type}

theorem getD_foldl_tallyStep (geo : Geo G Bx) (regions : List (Region G))
    (inputs : List (Feature G A)) (m : List (Nat × Nat)) (r : Nat) :
    getD (inputs.foldl (tallyStep geo regions) m) r
      = getD m r
        + inputs.countP (fun f => decide (classifyTally geo regions f.geom = some r)) := by
  induction inputs generalizing m with
  | nil => simp
  | cons f fs ih =>
    rw [List.foldl_cons, ih, List.countP_cons]
    cases hc : classifyTally geo regions f.geom with
    | none => simp [tallyStep, hc]
    | some lid =>
      by_cases hr : lid = r
      · subst hr
        simp [tallyStep, hc, getD_bump_self]
        omega
      · simp [tallyStep, hc, hr, getD_bump_ne _ _ _ (Ne.symm hr)]

theorem lookup_foldl_tallyStep_none (geo : Geo G Bx) (regions : List (Region G))
    (inputs : List (Feature G A)) (m : List (Nat × Nat)) (r : Nat)
    (h : ∀ f ∈ inputs, classifyTally geo regions f.geom ≠ some r) :
    (inputs.foldl (tallyStep geo regions) m).lookup r = m.lookup r := by
  induction inputs generalizing m with
  | nil => rfl
  | cons f fs ih =>
    rw [List.foldl_cons, ih _ (fun f2 hf2 => h f2 (List.mem_cons_of_mem _ hf2))]
    cases hc : classifyTally geo regions f.geom with
    | none => simp [tallyStep, hc]
    | some lid =>
      have hlr : lid ≠ r := fun he => h f (List.mem_cons_self _ _) (by rw [hc, he])
      simp [tallyStep, hc, lookup_bump_ne _ _ _ (Ne.symm hlr)]

theorem mkRegionsFrom_map_geom (n : Nat) (gs : List G) :
    (mkRegionsFrom n gs).map (fun r => r.geom) = gs := by
  induction gs generalizing n with
  | nil => rfl
  | cons g gs ih => simp [mkRegionsFrom, ih]

theorem mkRegionsFrom_map_lid (n : Nat) (gs : List G) :
    (mkRegionsFrom n gs).map (fun r => r.location_id) = List.range' n gs.length := by
  induction gs generalizing n with
  | nil => rfl
  | cons g gs ih => simp [mkRegionsFrom, ih, List.range'_succ]

theorem mkRegionsFrom_length (n : Nat) (gs : List G) :
    (mkRegionsFrom n gs).length = gs.length := by
  induction gs generalizing n with
  | nil => rfl
  | cons g gs ih => simp [mkRegionsFrom, ih]

theorem emitRecord_geom (geo : Geo G Bx) (regions : List (Region G))
    (counts : List (Nat × Nat)) (f : Feature G A) :
    (emitRecord geo regions counts f).geom = f.geom := by
  unfold emitRecord
  cases classifyEmit geo regions f.geom <;> rfl

theorem emitRecord_attributes (geo : Geo G Bx) (regions : List (Region G))
    (counts : List (Nat × Nat)) (f : Feature G A) :
    (emitRecord geo regions counts f).attributes = f.attributes := by
  unfold emitRecord
  cases classifyEmit geo regions f.geom <;> rfl

theorem classifyPhases_eq (geo : Geo G Bx) (regions : List (Region G)) (g : G) :
    classifyTally geo regions g = classifyEmit geo regions g := rfl

end SimilarCoordinate

namespace SimilarCoordinate
variable {G Bx A : Type}

/-- C1: the run emits exactly one OutputRecord per input Point, in input
iteration order, and the record at every index carries the original
geometry and the original attribute row unchanged. -/
theorem c1_output_rows_match_input (geo : Geo G Bx) (d : ℚ)
    (inputs : List (Feature G A)) (i : Nat) :
    (processAlgorithm geo d inputs).length = inputs.length ∧
      ((processAlgorithm geo d inputs)[i]?).map (fun o => (o.geom, o.attributes))
        = (inputs[i]?).map (fun f => (f.geom, f.attributes)) := by
  constructor
  · simp [processAlgorithm]
  · unfold processAlgorithm
    rw [List.getElem?_map]
    cases inputs[i]? with
    | none => rfl
    | some f => simp [emitRecord_geom, emitRecord_attributes]

/-- C2: provided the bounding-box index never misses an exactly
intersecting region (no false negatives), the assigned identifier is the
minimum of the set of exactly-intersecting region identifiers, and null
exactly when that set is empty. -/
theorem c2_assigned_is_min_exact (geo : Geo G Bx) (regions : List (Region G)) (g : G)
    (hno : ∀ r ∈ regions, geo.intersects r.geom g = true →
        geo.bboxIntersects (geo.boundingBox r.geom) (geo.boundingBox g) = true) :
    classifyEmit geo regions g = (exactIds geo regions g).min? := by
  unfold classifyEmit emitLocationIds candidateRegions exactIds
  rw [List.filter_filter]
  have hfe : regions.filter
        (fun r => geo.intersects r.geom g
          && geo.bboxIntersects (geo.boundingBox r.geom) (geo.boundingBox g))
      = regions.filter (fun r => geo.intersects r.geom g) := by
    apply List.filter_congr
    intro r hr
    cases hE : geo.intersects r.geom g with
    | true => simp [hno r hr hE]
    | false => simp
  rw [hfe]

/-- C4: the classification pass of the tally phase (step 6) and the
classification pass of the emission phase (step 7) are the same function:
on every geometry, over any region set, they return the same optional
identifier. -/
theorem c4_tally_and_emit_classifications_agree (geo : Geo G Bx)
    (regions : List (Region G)) (g : G) :
    classifyTally geo regions g = classifyEmit geo regions g := rfl

end SimilarCoordinate

namespace SimilarCoordinate
variable {G Bx A : Type}

/-- C3: the tally dictionary stores, for every identifier, exactly the
number of input features whose assignment is that identifier, and an
identifier is absent from the dictionary (so that a defaulted lookup
yields 0) precisely when no input feature is assigned to it. -/
theorem c3_tally_counts_assignments (geo : Geo G Bx) (d : ℚ)
    (inputs : List (Feature G A)) (r : Nat) :
    getD (countsOf geo d inputs) r
        = inputs.countP
            (fun f => decide (classifyTally geo (regionsOf geo d inputs) f.geom = some r)) ∧
      ((countsOf geo d inputs).lookup r = none ↔
        inputs.countP
            (fun f => decide (classifyTally geo (regionsOf geo d inputs) f.geom = some r)) = 0) := by
  have h1 : getD (countsOf geo d inputs) r
      = inputs.countP
          (fun f => decide (classifyTally geo (regionsOf geo d inputs) f.geom = some r)) := by
    simpa [getD] using
      getD_foldl_tallyStep geo (regionsOf geo d inputs) inputs [] r
  refine ⟨h1, ?_, ?_⟩
  · intro hln
    have h0 : getD (countsOf geo d inputs) r = 0 := by simp [getD, hln]
    omega
  · intro hc0
    have hall : ∀ f ∈ inputs,
        ¬ classifyTally geo (regionsOf geo d inputs) f.geom = some r := by
      have := List.countP_eq_zero.mp hc0
      intro f hf
      have h2 := this f hf
      simpa using h2
    rw [countsOf, lookup_foldl_tallyStep_none geo (regionsOf geo d inputs) inputs [] r hall]
    rfl

/-- C5 (amended): a negative distance is not rejected; the run proceeds
normally and still emits one output record per input feature. -/
theorem c5_amended_negative_distance_accepted (geo : Geo G Bx) (d : ℚ)
    (inputs : List (Feature G A)) (_hd : d < 0) :
    (processAlgorithm geo d inputs).length = inputs.length := by
  simp [processAlgorithm]

/-- C5 counterexample: at the negative distance -1 the run does not fail
and an output record is written, contradicting the claim that every
negative distance aborts the run before any output. -/
theorem c5_counterexample_negative_distance_emits :
    (-1 : ℚ) < 0 ∧
      processAlgorithm cellsGeo (-1) [(⟨[0], []⟩ : Feature (List ℤ) ℤ)]
        = [⟨[0], [], some 1, 1⟩] := by
  constructor
  · norm_num
  · decide

/-- Witness for the amended C5 at the concrete backend and distance -1. -/
theorem c5_amended_witness :
    (processAlgorithm cellsGeo (-1) [(⟨[0], []⟩ : Feature (List ℤ) ℤ)]).length = 1 :=
  (c5_amended_negative_distance_accepted cellsGeo (-1)
    [(⟨[0], []⟩ : Feature (List ℤ) ℤ)] (by norm_num)).trans rfl

end SimilarCoordinate

namespace SimilarCoordinate
variable {G Bx A : Type}

/-- C6: when the singlepart decomposition of the dissolved buffer union is
empty, the run produces zero regions and still emits every input feature,
unassigned (null identifier, count 0), instead of failing. -/
theorem c6_zero_regions_emit_unassigned (geo : Geo G Bx) (d : ℚ)
    (inputs : List (Feature G A)) (hparts : partsOf geo d inputs = []) (i : Nat) :
    regionsOf geo d inputs = [] ∧
      (processAlgorithm geo d inputs)[i]?
        = (inputs[i]?).map (fun f => ⟨f.geom, f.attributes, none, 0⟩) := by
  have hreg : regionsOf geo d inputs = [] := by
    rw [regionsOf, hparts]
    rfl
  refine ⟨hreg, ?_⟩
  unfold processAlgorithm
  rw [List.getElem?_map, hreg]
  cases inputs[i]? with
  | none => rfl
  | some f => simp [emitRecord, classifyEmit, emitLocationIds, candidateRegions]

/-- Witness for C6: one feature with an empty geometry; the decomposition
is empty and the feature is emitted unassigned with count 0. -/
theorem c6_witness :
    (processAlgorithm cellsGeo 1 [(⟨[], [5]⟩ : Feature (List ℤ) ℤ)])[0]?
      = some ⟨[], [5], none, 0⟩ :=
  ((c6_zero_regions_emit_unassigned cellsGeo 1
      [(⟨[], [5]⟩ : Feature (List ℤ) ℤ)] rfl 0).2).trans rfl

/-- C7: a run over zero input features does not fail and produces zero
output records and an empty tally; provided the geometry backend
decomposes the union of no buffers into no parts, it also produces zero
regions. -/
theorem c7_empty_input_empty_run (geo : Geo G Bx) (d : ℚ)
    (hempty : singleparts geo (geo.unaryUnion []) = []) :
    processAlgorithm geo d ([] : List (Feature G A)) = [] ∧
      regionsOf geo d ([] : List (Feature G A)) = [] ∧
      countsOf geo d ([] : List (Feature G A)) = [] := by
  refine ⟨rfl, ?_, rfl⟩
  rw [regionsOf, partsOf]
  show mkRegions (singleparts geo (geo.unaryUnion [])) = []
  rw [hempty]
  rfl

/-- Witness for C7 at the concrete backend. -/
theorem c7_witness :
    processAlgorithm cellsGeo 1 ([] : List (Feature (List ℤ) ℤ)) = [] ∧
      regionsOf cellsGeo 1 ([] : List (Feature (List ℤ) ℤ)) = [] ∧
      countsOf cellsGeo 1 ([] : List (Feature (List ℤ) ℤ)) = [] :=
  c7_empty_input_empty_run cellsGeo 1 rfl

/-- C8: the identifiers of the regions of a run are exactly the
consecutive integers 1..N, in production order, where N is the number of
regions. -/
theorem c8_region_ids_are_one_to_n (geo : Geo G Bx) (d : ℚ)
    (inputs : List (Feature G A)) :
    (regionsOf geo d inputs).map (fun r => r.location_id)
      = List.range' 1 (regionsOf geo d inputs).length := by
  rw [regionsOf, mkRegions, mkRegionsFrom_map_lid, mkRegionsFrom_length]

/-- C9: region construction preserves disjointness: when the parts
produced by the union decomposition are pairwise non-intersecting, the
regions built from them are pairwise non-intersecting as well. -/
theorem c9_regions_pairwise_disjoint (geo : Geo G Bx) (d : ℚ)
    (inputs : List (Feature G A))
    (hdisj : (partsOf geo d inputs).Pairwise
        (fun g1 g2 => geo.intersects g1 g2 = false)) :
    (regionsOf geo d inputs).Pairwise
      (fun r1 r2 => geo.intersects r1.geom r2.geom = false) := by
  rw [← mkRegionsFrom_map_geom 1 (partsOf geo d inputs), List.pairwise_map] at hdisj
  exact hdisj

/-- Witness for C9: two far-apart points give two disjoint parts and two
disjoint regions. -/
theorem c9_witness :
    (regionsOf cellsGeo 1 [(⟨[0], [7]⟩ : Feature (List ℤ) ℤ), ⟨[5], [9]⟩]).Pairwise
      (fun r1 r2 => cellsGeo.intersects r1.geom r2.geom = false) :=
  c9_regions_pairwise_disjoint cellsGeo 1
    [(⟨[0], [7]⟩ : Feature (List ℤ) ℤ), ⟨[5], [9]⟩] (by decide)

end SimilarCoordinate

namespace SimilarCoordinate
variable {G Bx A : Type}

/-- Witness for C2: a point geometry exactly intersecting the two regions
with identifiers 3 and 7 is assigned the minimum, 3. -/
theorem c2_witness :
    classifyEmit cellsGeo [⟨3, [0]⟩, ⟨7, [0, 1]⟩] [0] = some 3 := by
  rw [c2_assigned_is_min_exact cellsGeo [⟨3, [0]⟩, ⟨7, [0, 1]⟩] [0]
    (fun r _ h => h)]
  decide

/-- C10: every emitted record with a non-null assigned identifier has a
count of at least 1 (the feature counts itself), and every record with a
null assigned identifier has count exactly 0. -/
theorem c10_count_positive_iff_assigned (geo : Geo G Bx) (d : ℚ)
    (inputs : List (Feature G A)) (o : OutputRecord G A)
    (ho : o ∈ processAlgorithm geo d inputs) :
    (o.location_id.isSome = true → 1 ≤ o.count_id) ∧
      (o.location_id = none → o.count_id = 0) := by
  unfold processAlgorithm at ho
  obtain ⟨f, hf, rfl⟩ := List.mem_map.mp ho
  cases hc : classifyEmit geo (regionsOf geo d inputs) f.geom with
  | none =>
    constructor
    · intro hr
      simp [emitRecord, hc] at hr
    · intro _
      simp [emitRecord, hc]
  | some lid =>
    constructor
    · intro _
      have hcount : getD (countsOf geo d inputs) lid
          = inputs.countP
              (fun f2 => decide (classifyTally geo (regionsOf geo d inputs) f2.geom = some lid)) := by
        simpa [getD] using
          getD_foldl_tallyStep geo (regionsOf geo d inputs) inputs [] lid
      have hpos : 0 < inputs.countP
          (fun f2 => decide (classifyTally geo (regionsOf geo d inputs) f2.geom = some lid)) := by
        rw [List.countP_pos_iff]
        refine ⟨f, hf, ?_⟩
        simpa [classifyPhases_eq] using hc
      have : (emitRecord geo (regionsOf geo d inputs) (countsOf geo d inputs) f).count_id
          = getD (countsOf geo d inputs) lid := by
        simp [emitRecord, hc]
      omega
    · intro hnone
      simp [emitRecord, hc] at hnone

/-- Witness for C10: in a one-feature run the emitted record is assigned
and its count is 1, hence at least 1. -/
theorem c10_witness :
    1 ≤ (⟨[0], [7], some 1, 1⟩ : OutputRecord (List ℤ) ℤ).count_id :=
  (c10_count_positive_iff_assigned cellsGeo 1 [⟨[0], [7]⟩]
    (⟨[0], [7], some 1, 1⟩ : OutputRecord (List ℤ) ℤ) (by decide)).1 rfl

end SimilarCoordinate
